import Mathlib

/-!
# Verification of the LinX OS SDK build orchestrator (`linxos.py`)

A shallow embedding of the configuration store, artifact probes and build
orchestrator of `linxos.py`, together with theorems settling the frozen
claims about it.  External effects (subprocess stages, the filesystem,
file copies) are modelled explicitly: the filesystem is a list of existing
file paths, external build stages are an environment of boolean outcomes,
and every operation additionally returns the trace of external stage
invocations it performed.
-/

set_option autoImplicit false
set_option linter.unusedVariables false
set_option linter.unnecessarySeqFocus false

/-! ## Definitions -/

/-- Strip characters satisfying `p` from both ends of a character list
(the semantics of Python's `str.strip(chars)`). -/
def stripChars (p : Char → Bool) (l : List Char) : List Char :=
  ((l.dropWhile p).reverse.dropWhile p).reverse

/-- Python's `line.strip()`: surrounding whitespace removed. -/
def pyStripWs (l : List Char) : List Char :=
  stripChars Char.isWhitespace l

/-- Python's `value.strip('"\x27')`: surrounding single/double quote
characters removed (and nothing else). -/
def stripQuotes (l : List Char) : List Char :=
  stripChars (fun c => c = '"' || c = '\'') l

/-- Python's `line.split('=', 1)` fused with the `'=' in line` test:
`none` when the line holds no `=`, otherwise the parts before and after
the first `=`. -/
def splitFirstEq : List Char → Option (List Char × List Char)
  | [] => none
  | c :: rest =>
    if c = '=' then some ([], rest)
    else
      match splitFirstEq rest with
      | none => none
      | some (k, v) => some (c :: k, v)

/-- Insertion into a Python dict viewed as an association list with unique
keys: an existing binding is overwritten in place, a new key is appended. -/
def dictInsert : List (String × String) → String → String → List (String × String)
  | [], k, v => [(k, v)]
  | (k0, v0) :: rest, k, v =>
    if k0 = k then (k0, v) :: rest else (k0, v0) :: dictInsert rest k v

/-- One iteration of the loop in `_parse_config_file`: strip the line,
skip it when blank or a `#` comment or without `=`, otherwise split on the
first `=`, strip surrounding quotes from the value and store the binding. -/
def processConfigLine (acc : List (String × String)) (raw : String) : List (String × String) :=
  let l := pyStripWs raw.toList
  if l.isEmpty then acc
  else if l.head? = some '#' then acc
  else
    match splitFirstEq l with
    | none => acc
    | some (k, v) => dictInsert acc (List.asString k) (List.asString (stripQuotes v))

/-- `LinxOSBuilder._parse_config_file`, over the file's lines. -/
def parseConfigFile (lines : List String) : List (String × String) :=
  lines.foldl processConfigLine []

/-- The per-line key/value extraction of the parser, as the spec words it
(after the correction that only quote characters are stripped from the
value): used for the last-occurrence-wins lookup specification. -/
def specLineKV (raw : String) : Option (String × String) :=
  let l := pyStripWs raw.toList
  if l.isEmpty then none
  else if l.head? = some '#' then none
  else
    match splitFirstEq l with
    | none => none
    | some (k, v) => some (List.asString k, List.asString (stripQuotes v))

/-- Lookup in a Python dict viewed as an association list with unique
keys (the semantics of `dict.get`): the first — hence only — binding. -/
def dictFind : List (String × String) → String → Option String
  | [], _ => none
  | (a, b) :: rest, k => if a = k then some b else dictFind rest k

/-- Spec-side lookup: among the processed lines, the value of the LAST
line whose key is `k` ("duplicate keys are resolved by last occurrence
winning"). -/
def specConfigLookup (lines : List String) (k : String) : Option String :=
  (((lines.filterMap specLineKV).reverse).find? (fun p => decide (p.1 = k))).map Prod.snd

/-- The in-memory active configuration (`self.current_config`): the six
recognized keys plus the two derived build flags. -/
structure BuildConfig where
  target : String
  board : String
  build_type : String
  toolchain_file : String
  toolchainPfx : String
  description : String
  sdk_built : Bool
  board_built : Bool
deriving DecidableEq, Repr

/-- The filesystem, as the list of existing file paths (paths relative to
the SDK root, components joined with `/`).  A directory exists when some
file lies under it. -/
abbrev FS := List String

/-- `Path.exists` for a file. -/
def fileExists (fs : FS) (p : String) : Bool :=
  fs.contains p

/-- `f` is the directory `d` itself or lies beneath it. -/
def isUnder (d f : String) : Bool :=
  d == f || List.isPrefixOf (d.toList ++ ['/']) f.toList

/-- `shutil.rmtree` guarded by `exists()`: every path at or below `d` is
removed; removing a nonexistent directory is a no-op. -/
def rmtree (fs : FS) (d : String) : FS :=
  fs.filter (fun f => !(isUnder d f))

/-- `LinxOSBuilder._check_sdk_built`: the fixed SDK static-library
artifact exists. -/
def check_sdk_built (fs : FS) : Bool :=
  fileExists fs "out/linx/lib/liblinx_sdk_static.a"

/-- The board static-library artifact path probed for board name `b`. -/
def boardLibPath (b : String) : String :=
  "out/linx/lib/liblinx_board_" ++ b ++ ".a"

/-- `LinxOSBuilder._check_board_built`: probes for the artifact named
after the current configuration's board; while `current_config` is still
`None` (during `__init__`) the default board `"mac"` is used. -/
def check_board_built (cur : Option BuildConfig) (fs : FS) : Bool :=
  let board := match cur with
    | none => "mac"
    | some c => c.board
  fileExists fs (boardLibPath board)

/-- The state of the backing `sdkconfig` file as seen by `_load_config`:
missing, unreadable (opening or decoding raises, so the parser returns the
empty dict), or readable with the given lines. -/
inductive FileState where
  | missing
  | unreadable
  | content (lines : List String)
deriving DecidableEq, Repr

/-- The defaults installed at the top of `_load_config`. -/
def defaultBuildConfig : BuildConfig :=
  ⟨"native", "mac", "Release", "", "", "默认配置", false, false⟩

/-- `dict.get k default`. -/
def dictGetD (d : List (String × String)) (k dflt : String) : String :=
  (dictFind d k).getD dflt

/-- `LinxOSBuilder._load_config`: defaults, overridden from the parsed
file when it exists and parses to a non-empty dict, then the two build
flags are probed — with `current_config` still unset, so the board probe
uses the default board name. -/
def load_config (file : FileState) (fs : FS) : BuildConfig :=
  let base := defaultBuildConfig
  let cfg :=
    match file with
    | .missing => base
    | .unreadable => base
    | .content lines =>
      let d := parseConfigFile lines
      if d.isEmpty then base
      else
        { base with
          target := dictGetD d "CONFIG_TARGET_PLATFORM" "native"
          board := dictGetD d "CONFIG_BOARD_PLATFORM" "mac"
          build_type := dictGetD d "CONFIG_BUILD_TYPE" "Release"
          toolchain_file := dictGetD d "CONFIG_TOOLCHAIN_FILE" ""
          toolchainPfx := dictGetD d "CONFIG_TOOLCHAIN_PREFIX" ""
          description := dictGetD d "CONFIG_DESCRIPTION" "当前配置" }
  { cfg with
    sdk_built := check_sdk_built fs
    board_built := check_board_built none fs }

/-- A catalog entry (`self.available_configs[name]`): the backing file's
lines and its parsed data. -/
structure CatalogEntry where
  file : List String
  data : List (String × String)
deriving DecidableEq, Repr

/-- `LinxOSBuilder._apply_config`: copy the entry's backing file over the
active config file, update the in-memory configuration from the entry's
data, then re-probe both build flags (the board probe now sees the
updated board).  The copy is modelled as an atomic step whose failure
(`copyOk = false` — e.g. permission denied or missing source, which fail
before any byte is written) raises, so the `except` branch returns
failure with the active file and the in-memory state untouched. -/
def apply_config (copyOk : Bool) (fs : FS) (active : List String)
    (st : BuildConfig) (entry : CatalogEntry) :
    Bool × List String × BuildConfig :=
  if !copyOk then (false, active, st)
  else
    let st1 :=
      { st with
        target := dictGetD entry.data "CONFIG_TARGET_PLATFORM" "native"
        board := dictGetD entry.data "CONFIG_BOARD_PLATFORM" "mac"
        build_type := dictGetD entry.data "CONFIG_BUILD_TYPE" "Release"
        toolchain_file := dictGetD entry.data "CONFIG_TOOLCHAIN_FILE" ""
        toolchainPfx := dictGetD entry.data "CONFIG_TOOLCHAIN_PREFIX" "" }
    let st2 :=
      { st1 with
        sdk_built := check_sdk_built fs
        board_built := check_board_built (some st1) fs }
    (true, entry.file, st2)

/-- The recognized key `k` is absent from the parsed backing file (always
so for a missing or unreadable file). -/
def configKeyAbsent : FileState → String → Bool
  | .missing, _ => true
  | .unreadable, _ => true
  | .content lines, k => (dictFind (parseConfigFile lines) k).isNone

/-- One observable action of the orchestrator: an external build stage
invocation (`subprocess.run`), the start-of-project-build marker
(the `开始编译项目` log line of `build_project`), or running a project's
executable. -/
inductive Event where
  | sdkConfigure
  | sdkCompile
  | sdkInstall
  | boardConfigure
  | boardCompile
  | boardInstall
  | projAttempt (cat name : String)
  | projConfigure (cat name : String)
  | projCompile (cat name : String)
  | runExe (exe : String) (args : List String)
deriving DecidableEq, Repr

/-- The external world: outcomes of the delegated toolchain stages and
filesystem facts consulted by the orchestrator.  Outcomes are fixed per
environment (a deterministic external toolchain). -/
structure Env where
  sdkConfigureOk : Bool
  sdkCompileOk : Bool
  sdkInstallOk : Bool
  boardDirMissing : String → Bool
  boardConfigureOk : Bool
  boardCompileOk : Bool
  boardInstallOk : Bool
  projConfigureOk : String → String → Bool
  projCompileOk : String → String → Bool
  exeFound : String → String → Option String
  exeRunOk : String → String → Bool

/-- Result of one orchestrator operation: the returned boolean, the
updated in-memory configuration, and the trace of events performed. -/
structure BuildResult where
  ok : Bool
  st : BuildConfig
  trace : List Event
deriving DecidableEq, Repr

/-- The discovered project catalog (`self.projects`): the names under
`apps/` and the names under `examples/`. -/
structure Projects where
  apps : List String
  examples : List String
deriving DecidableEq, Repr

/-- `self.projects[cat]`: the dict holds exactly the keys `"apps"` and
`"examples"`. -/
def Projects.category (ps : Projects) (cat : String) : Option (List String) :=
  if cat = "apps" then some ps.apps
  else if cat = "examples" then some ps.examples
  else none

/-- `LinxOSBuilder.build_sdk`: skip when already built and not forced,
otherwise run configure / compile / install, aborting at the first
failing stage; on install success mark `sdk_built`. -/
def build_sdk (env : Env) (st : BuildConfig) (force : Bool) : BuildResult :=
  if st.sdk_built && !force then ⟨true, st, []⟩
  else if !env.sdkConfigureOk then ⟨false, st, [.sdkConfigure]⟩
  else if !env.sdkCompileOk then ⟨false, st, [.sdkConfigure, .sdkCompile]⟩
  else if !env.sdkInstallOk then ⟨false, st, [.sdkConfigure, .sdkCompile, .sdkInstall]⟩
  else ⟨true, { st with sdk_built := true }, [.sdkConfigure, .sdkCompile, .sdkInstall]⟩

/-- `LinxOSBuilder.build_board`: fail at once when the SDK is not built;
skip when already built and not forced; fail when the board's source
directory is missing; otherwise configure / compile / install, aborting
at the first failing stage; on install success mark `board_built`. -/
def build_board (env : Env) (st : BuildConfig) (force : Bool) : BuildResult :=
  if !st.sdk_built then ⟨false, st, []⟩
  else if st.board_built && !force then ⟨true, st, []⟩
  else if env.boardDirMissing st.board then ⟨false, st, []⟩
  else if !env.boardConfigureOk then ⟨false, st, [.boardConfigure]⟩
  else if !env.boardCompileOk then ⟨false, st, [.boardConfigure, .boardCompile]⟩
  else if !env.boardInstallOk then
    ⟨false, st, [.boardConfigure, .boardCompile, .boardInstall]⟩
  else ⟨true, { st with board_built := true },
    [.boardConfigure, .boardCompile, .boardInstall]⟩

/-- `LinxOSBuilder.build_project`: reject an unknown category or project
name with no action; otherwise log the attempt, ensure the SDK and the
board are built (both invoked NON-forced, whatever `force` is), aborting
on a prerequisite failure; then configure and compile the project (no
install stage). -/
def build_project (env : Env) (ps : Projects) (st : BuildConfig)
    (cat name : String) (force : Bool) : BuildResult :=
  match ps.category cat with
  | none => ⟨false, st, []⟩
  | some names =>
    if !names.contains name then ⟨false, st, []⟩
    else
      let r1 := build_sdk env st false
      if !r1.ok then ⟨false, r1.st, .projAttempt cat name :: r1.trace⟩
      else
        let r2 := build_board env r1.st false
        if !r2.ok then ⟨false, r2.st, .projAttempt cat name :: (r1.trace ++ r2.trace)⟩
        else if !(env.projConfigureOk cat name) then
          ⟨false, r2.st,
            .projAttempt cat name :: (r1.trace ++ r2.trace ++ [.projConfigure cat name])⟩
        else
          ⟨env.projCompileOk cat name, r2.st,
            .projAttempt cat name ::
              (r1.trace ++ r2.trace ++ [.projConfigure cat name, .projCompile cat name])⟩

/-- The loop of `build_examples`: build every example in order via
`build_project`, threading the configuration state, counting successes
and collecting the trace. -/
def build_examples_loop (env : Env) (ps : Projects) (force : Bool) :
    List String → BuildConfig → Nat × BuildConfig × List Event
  | [], st => (0, st, [])
  | n :: rest, st =>
    let r := build_project env ps st "examples" n force
    let k := build_examples_loop env ps force rest r.st
    ((if r.ok then 1 else 0) + k.1, k.2.1, r.trace ++ k.2.2)

/-- `LinxOSBuilder.build_examples`: no examples at all is a success;
otherwise build each one, tolerate individual failures, and succeed only
when the success count equals the total. -/
def build_examples (env : Env) (ps : Projects) (st : BuildConfig)
    (force : Bool) : BuildResult :=
  if ps.examples.isEmpty then ⟨true, st, []⟩
  else
    let k := build_examples_loop env ps force ps.examples st
    ⟨k.1 == ps.examples.length, k.2.1, k.2.2⟩

/-- `LinxOSBuilder.build_all`: SDK, then Board, then Examples, each with
the caller's `force` flag, aborting at the first failing stage. -/
def build_all (env : Env) (ps : Projects) (st : BuildConfig)
    (force : Bool) : BuildResult :=
  let r1 := build_sdk env st force
  if !r1.ok then ⟨false, r1.st, r1.trace⟩
  else
    let r2 := build_board env r1.st force
    if !r2.ok then ⟨false, r2.st, r1.trace ++ r2.trace⟩
    else
      let r3 := build_examples env ps r2.st force
      ⟨r3.ok, r3.st, r1.trace ++ r2.trace ++ r3.trace⟩

/-- `LinxOSBuilder.run_project`: reject an unknown category or project
name with no action; fail when no executable is found (without building
anything); otherwise run the executable with the given arguments and
report its exit status.  It never touches the configuration state. -/
def run_project (env : Env) (ps : Projects) (cat name : String)
    (args : List String) : Bool × List Event :=
  match ps.category cat with
  | none => (false, [])
  | some names =>
    if !names.contains name then (false, [])
    else
      match env.exeFound cat name with
      | none => (false, [])
      | some exe => (env.exeRunOk cat name, [.runExe exe args])

/-- The build directories of every known project, apps first then
examples, as iterated by `clean`. -/
def projectBuildDirs (ps : Projects) : List String :=
  ps.apps.map (fun n => "apps/" ++ n ++ "/build")
    ++ ps.examples.map (fun n => "examples/" ++ n ++ "/build")

/-- `LinxOSBuilder.clean` with no arguments: remove the SDK build
directory, the output directory and every known project's build
directory (each guarded by `exists()`, so a missing directory is a
no-op), then reset both build flags. -/
def cleanAll (ps : Projects) (fs : FS) (st : BuildConfig) : FS × BuildConfig :=
  let fs1 := rmtree fs "build"
  let fs2 := rmtree fs1 "out"
  let fs3 := (projectBuildDirs ps).foldl rmtree fs2
  (fs3, { st with sdk_built := false, board_built := false })

/-- A concrete environment in which every external stage succeeds and no
executable is found, used to instantiate witnesses. -/
def envAllOk : Env :=
  ⟨true, true, true, fun _ => false, true, true, true,
    fun _ _ => true, fun _ _ => true, fun _ _ => none, fun _ _ => false⟩

/-- A concrete environment whose SDK configure stage fails (everything
else as in `envAllOk`), used to instantiate witnesses. -/
def envSdkConfFails : Env :=
  ⟨false, true, true, fun _ => false, true, true, true,
    fun _ _ => true, fun _ _ => true, fun _ _ => none, fun _ _ => false⟩

/-- The event is one of the three SDK build stages. -/
def Event.isSdkStage : Event → Bool
  | .sdkConfigure => true
  | .sdkCompile => true
  | .sdkInstall => true
  | _ => false

/-- The event is one of the three board build stages. -/
def Event.isBoardStage : Event → Bool
  | .boardConfigure => true
  | .boardCompile => true
  | .boardInstall => true
  | _ => false

/-- The project names whose build was started, in order, read off a
trace (one `projAttempt` marker is emitted per `build_project` call that
passes the catalog checks). -/
def exampleAttempts (tr : List Event) : List String :=
  tr.filterMap (fun e =>
    match e with
    | .projAttempt _ n => some n
    | _ => none)

/-- Ghost observer: the success of each example's `build_project` call,
in order, threading the configuration state exactly as the loop of
`build_examples` does. -/
def examplesResults (env : Env) (ps : Projects) (force : Bool) :
    List String → BuildConfig → List Bool
  | [], _ => []
  | n :: rest, st =>
    let r := build_project env ps st "examples" n force
    r.ok :: examplesResults env ps force rest r.st

/-- No file at or below directory `d` exists in `fs`. -/
def dirGone (fs : FS) (d : String) : Bool :=
  fs.all (fun f => !(isUnder d f))

/-! ## Theorems -/

theorem processConfigLine_eq (acc : List (String × String)) (raw : String) :
    processConfigLine acc raw =
      match specLineKV raw with
      | none => acc
      | some (k, v) => dictInsert acc k v := by
  unfold processConfigLine specLineKV
  rcases h : pyStripWs raw.toList with _ | ⟨c, cs⟩
  · simp
  · simp only [List.isEmpty_cons, List.head?_cons, if_false, Bool.false_eq_true]
    by_cases hc : c = '#'
    · simp [hc]
    · simp only [Option.some.injEq, hc, if_false]
      rcases hs : splitFirstEq (c :: cs) with _ | ⟨k, v⟩
      · simp
      · simp

theorem dictFind_dictInsert (acc : List (String × String)) (k0 v0 k : String) :
    dictFind (dictInsert acc k0 v0) k = if k0 = k then some v0 else dictFind acc k := by
  induction acc with
  | nil => simp [dictInsert, dictFind]
  | cons hd tl ih =>
    cases hd with
    | mk a b =>
      by_cases hak : a = k0
      · subst hak
        by_cases h : a = k <;> simp [dictInsert, dictFind, h]
      · by_cases h : a = k
        · subst h
          simp [dictInsert, dictFind, hak, Ne.symm hak]
        · simp [dictInsert, dictFind, hak, h, ih]

/-- **C5** (amended): the config parser processes only non-blank lines not
starting with `#` (after stripping surrounding whitespace from the whole
line); each such line containing `=` is split on the first `=` only;
surrounding single/double quote characters — but not surrounding
whitespace — are trimmed from the value; duplicate keys are resolved by
the last occurrence winning; and lines without `=` or starting with `#`
leave the key set unaffected.  Formally: looking up any key in the parsed
dict agrees with the spec-side "last processed line whose key matches"
semantics, for every input text. -/
theorem c5_parse_config_last_wins (lines : List String) (k : String) :
    dictFind (parseConfigFile lines) k = specConfigLookup lines k := by
  induction lines using List.reverseRecOn with
  | nil => rfl
  | append_singleton init l ih =>
    have hfold : parseConfigFile (init ++ [l]) = processConfigLine (parseConfigFile init) l := by
      simp [parseConfigFile, List.foldl_append]
    rw [hfold, processConfigLine_eq]
    rcases hl : specLineKV l with _ | ⟨k0, v0⟩
    · simpa [specConfigLookup, List.filterMap_append, hl] using ih
    · simp only [hl]
      rw [dictFind_dictInsert]
      simp only [specConfigLookup, List.filterMap_append, List.filterMap_cons, hl,
        List.filterMap_nil, List.reverse_append, List.reverse_cons, List.reverse_nil,
        List.nil_append, List.cons_append, List.find?_cons]
      by_cases hk : k0 = k
      · simp [hk]
      · simpa [hk, specConfigLookup] using ih

/-- **C5, counterexample to the claim as stated**: on the line `K= 'x'`
the stored value is `" 'x"` — the leading whitespace after `=` is kept
and the now-unbalanced leading quote survives — whereas trimming
surrounding whitespace and surrounding quote characters from the value,
as the claim states, would store `"x"`. -/
theorem c5_as_stated_counterexample :
    dictFind (parseConfigFile ["K= 'x'"]) "K" = some " 'x" ∧ (" 'x" : String) ≠ "x" := by
  exact ⟨by decide, by decide⟩

/-- **C6**: for every state of the backing file — missing, unreadable, or
only partially specified — `load_config` fills every missing recognized
key with its default (`target=native`, `board=mac`, `build_type=Release`);
the embedding is a total function, so loading never raises. -/
theorem c6_load_config_defaults (file : FileState) (fs : FS) :
    (configKeyAbsent file "CONFIG_TARGET_PLATFORM" = true →
      (load_config file fs).target = "native") ∧
    (configKeyAbsent file "CONFIG_BOARD_PLATFORM" = true →
      (load_config file fs).board = "mac") ∧
    (configKeyAbsent file "CONFIG_BUILD_TYPE" = true →
      (load_config file fs).build_type = "Release") := by
  cases file with
  | missing => exact ⟨fun _ => rfl, fun _ => rfl, fun _ => rfl⟩
  | unreadable => exact ⟨fun _ => rfl, fun _ => rfl, fun _ => rfl⟩
  | content lines =>
    by_cases he : (parseConfigFile lines).isEmpty
    · refine ⟨fun _ => ?_, fun _ => ?_, fun _ => ?_⟩ <;>
        simp [load_config, he, defaultBuildConfig]
    · refine ⟨fun h => ?_, fun h => ?_, fun h => ?_⟩ <;>
      · simp only [configKeyAbsent, Option.isNone_iff_eq_none] at h
        simp [load_config, he, dictGetD, h]

/-- Witness for C6 at the concrete input "backing file missing". -/
theorem c6_load_config_defaults_witness :
    configKeyAbsent FileState.missing "CONFIG_TARGET_PLATFORM" = true ∧
    (load_config FileState.missing []).target = "native" ∧
    (load_config FileState.missing []).board = "mac" ∧
    (load_config FileState.missing []).build_type = "Release" :=
  ⟨rfl, (c6_load_config_defaults FileState.missing []).1 rfl,
    (c6_load_config_defaults FileState.missing []).2.1 rfl,
    (c6_load_config_defaults FileState.missing []).2.2 rfl⟩

/-- **C7** (amended): `_check_board_built` probes for the static-library
artifact whose filename embeds the current configuration's board name —
except that while no configuration is loaded yet (`current_config` is
`None`, i.e. during the initial load) the probe falls back to the default
board name `"mac"` regardless of what the file configures; applying a
catalog entry with `CONFIG_BOARD_PLATFORM=devkit` updates the board
before re-probing, so the artifact is re-probed under the board name
`devkit`. -/
theorem c7_board_probe_amended :
    (∀ (st : BuildConfig) (fs : FS),
      check_board_built (some st) fs = fileExists fs (boardLibPath st.board)) ∧
    (∀ fs : FS, check_board_built none fs = fileExists fs (boardLibPath "mac")) ∧
    (∀ (fs : FS) (active : List String) (st : BuildConfig) (entry : CatalogEntry),
      dictFind entry.data "CONFIG_BOARD_PLATFORM" = some "devkit" →
        (apply_config true fs active st entry).2.2.board = "devkit" ∧
        (apply_config true fs active st entry).2.2.board_built
          = fileExists fs (boardLibPath "devkit")) := by
  refine ⟨fun st fs => rfl, fun fs => rfl, fun fs active st entry h => ?_⟩
  constructor
  · simp [apply_config, dictGetD, h]
  · simp [apply_config, check_board_built, dictGetD, h]

/-- Witness for C7's amended apply-scenario at a concrete catalog entry. -/
theorem c7_board_probe_amended_witness :
    dictFind [("CONFIG_BOARD_PLATFORM", "devkit")] "CONFIG_BOARD_PLATFORM" = some "devkit" ∧
    ((apply_config true ["out/linx/lib/liblinx_board_devkit.a"] [] defaultBuildConfig
        ⟨["CONFIG_BOARD_PLATFORM=devkit"], [("CONFIG_BOARD_PLATFORM", "devkit")]⟩).2.2.board
          = "devkit" ∧
      (apply_config true ["out/linx/lib/liblinx_board_devkit.a"] [] defaultBuildConfig
        ⟨["CONFIG_BOARD_PLATFORM=devkit"], [("CONFIG_BOARD_PLATFORM", "devkit")]⟩).2.2.board_built
          = fileExists ["out/linx/lib/liblinx_board_devkit.a"] (boardLibPath "devkit")) :=
  ⟨by decide,
    c7_board_probe_amended.2.2 ["out/linx/lib/liblinx_board_devkit.a"] [] defaultBuildConfig
      ⟨["CONFIG_BOARD_PLATFORM=devkit"], [("CONFIG_BOARD_PLATFORM", "devkit")]⟩ (by decide)⟩

/-- **C7, counterexample to the claim as stated**: loading an active file
that configures board `devkit` while only the `mac` board artifact exists
yields an active configuration state whose board is `devkit` and whose
`board_built` flag is `true`, even though the artifact embedding the
active configuration's board name (`devkit`) does not exist — the initial
probe runs before `current_config` is set and so uses `"mac"`. -/
theorem c7_as_stated_counterexample :
    (load_config (FileState.content ["CONFIG_BOARD_PLATFORM=devkit"])
        ["out/linx/lib/liblinx_board_mac.a"]).board = "devkit" ∧
    (load_config (FileState.content ["CONFIG_BOARD_PLATFORM=devkit"])
        ["out/linx/lib/liblinx_board_mac.a"]).board_built = true ∧
    fileExists ["out/linx/lib/liblinx_board_mac.a"] (boardLibPath "devkit") = false :=
  ⟨by decide, by decide, by decide⟩

/-- **C9**: when the copy of the entry's backing file over the active
config file cannot complete, `_apply_config` signals failure, and both
the active config file and the in-memory active configuration state are
left exactly as they were (the in-memory update only happens after a
successful copy). -/
theorem c9_apply_config_failure_atomic (fs : FS) (active : List String)
    (st : BuildConfig) (entry : CatalogEntry) (copyOk : Bool)
    (h : copyOk = false) :
    apply_config copyOk fs active st entry = (false, active, st) := by
  subst h; rfl

/-- Witness for C9 at a concrete failed copy. -/
theorem c9_apply_config_failure_atomic_witness :
    (false : Bool) = false ∧
    apply_config false [] ["OLD=1"] defaultBuildConfig ⟨["NEW=2"], [("NEW", "2")]⟩
      = (false, ["OLD=1"], defaultBuildConfig) :=
  ⟨rfl, c9_apply_config_failure_atomic [] ["OLD=1"] defaultBuildConfig
    ⟨["NEW=2"], [("NEW", "2")]⟩ false rfl⟩

theorem build_sdk_trace_sdk (env : Env) (st : BuildConfig) (force : Bool) :
    ∀ e ∈ (build_sdk env st force).trace, e.isSdkStage = true := by
  intro e he
  unfold build_sdk at he
  repeat' split at he
  all_goals fin_cases he <;> rfl

theorem build_board_trace_board (env : Env) (st : BuildConfig) (force : Bool) :
    ∀ e ∈ (build_board env st force).trace, e.isBoardStage = true := by
  intro e he
  unfold build_board at he
  repeat' split at he
  all_goals fin_cases he <;> rfl

/-- **C3**: whenever `sdk_built` is false, `build_board(force=false)`
fails immediately, with an empty event trace (so no configure, compile
or install call and no transitive SDK build) and an unchanged
configuration state. -/
theorem c3_build_board_missing_prereq (env : Env) (st : BuildConfig)
    (h : st.sdk_built = false) :
    build_board env st false = ⟨false, st, []⟩ := by
  simp [build_board, h]

/-- Witness for C3 on the default (freshly loaded, nothing built) state. -/
theorem c3_build_board_missing_prereq_witness :
    defaultBuildConfig.sdk_built = false ∧
    build_board envAllOk defaultBuildConfig false = ⟨false, defaultBuildConfig, []⟩ :=
  ⟨rfl, c3_build_board_missing_prereq envAllOk defaultBuildConfig rfl⟩

/-- **C10**: for a category other than `apps`/`examples`, or a name
unknown within its category, both `build_project` and `run_project`
return failure immediately: the trace is empty (no prerequisite SDK or
board build, no external stage) and the configuration state is
unchanged (`run_project` never touches it at all). -/
theorem c10_unknown_project_rejected (env : Env) (ps : Projects)
    (st : BuildConfig) (cat name : String) (force : Bool) (args : List String)
    (h : ps.category cat = none ∨
      ∃ names, ps.category cat = some names ∧ names.contains name = false) :
    build_project env ps st cat name force = ⟨false, st, []⟩ ∧
    run_project env ps cat name args = (false, []) := by
  rcases h with h | ⟨names, hc, hn⟩
  · simp [build_project, run_project, h]
  · have hmem : name ∉ names := by simpa using hn
    simp [build_project, run_project, hc, hmem]

/-- Witness for C10: the category `libs` does not exist. -/
theorem c10_unknown_project_rejected_witness :
    (Projects.category ⟨["demo"], ["mac"]⟩ "libs" = none ∨
      ∃ names, Projects.category ⟨["demo"], ["mac"]⟩ "libs" = some names ∧
        names.contains "nope" = false) ∧
    (build_project envAllOk ⟨["demo"], ["mac"]⟩ defaultBuildConfig "libs" "nope" true
        = ⟨false, defaultBuildConfig, []⟩ ∧
      run_project envAllOk ⟨["demo"], ["mac"]⟩ "libs" "nope" [] = (false, [])) :=
  ⟨Or.inl (by decide),
    c10_unknown_project_rejected envAllOk ⟨["demo"], ["mac"]⟩
      defaultBuildConfig "libs" "nope" true [] (Or.inl (by decide))⟩

/-- **C1**: for every valid category and project name and every force
flag, `build_project` first invokes `build_sdk` with `force = false` and
then `build_board` with `force = false` — non-forced even when its own
`force` flag is true — and when either prerequisite fails it returns that
failure with the prerequisite's trace only, never reaching its own
configure or compile stage. -/
theorem c1_build_project_prereqs (env : Env) (ps : Projects)
    (st : BuildConfig) (cat name : String) (force : Bool)
    (names : List String) (hcat : ps.category cat = some names)
    (hname : names.contains name = true) :
    (∃ tail, (build_project env ps st cat name force).trace
      = Event.projAttempt cat name :: ((build_sdk env st false).trace ++ tail)) ∧
    ((build_sdk env st false).ok = false →
      build_project env ps st cat name force
        = ⟨false, (build_sdk env st false).st,
            Event.projAttempt cat name :: (build_sdk env st false).trace⟩) ∧
    ((build_sdk env st false).ok = true →
      (build_board env (build_sdk env st false).st false).ok = false →
      build_project env ps st cat name force
        = ⟨false, (build_board env (build_sdk env st false).st false).st,
            Event.projAttempt cat name ::
              ((build_sdk env st false).trace
                ++ (build_board env (build_sdk env st false).st false).trace)⟩) ∧
    ((build_sdk env st false).ok = false ∨
        (build_board env (build_sdk env st false).st false).ok = false →
      ∀ e ∈ (build_project env ps st cat name force).trace,
        e ≠ Event.projConfigure cat name ∧ e ≠ Event.projCompile cat name) := by
  have hmem : name ∈ names := by simpa using hname
  cases h1 : (build_sdk env st false).ok with
  | false =>
    have hbp : build_project env ps st cat name force
        = ⟨false, (build_sdk env st false).st,
            Event.projAttempt cat name :: (build_sdk env st false).trace⟩ := by
      simp [build_project, hcat, hmem, h1]
    refine ⟨⟨[], by simp [hbp]⟩, fun _ => hbp, fun hc => by simp [h1] at hc, fun _ => ?_⟩
    intro e he
    rw [hbp] at he
    simp only [List.mem_cons] at he
    rcases he with rfl | he
    · exact ⟨by simp, by simp⟩
    · have := build_sdk_trace_sdk env st false e he
      cases e <;> simp_all [Event.isSdkStage]
  | true =>
    cases h2 : (build_board env (build_sdk env st false).st false).ok with
    | false =>
      have hbp : build_project env ps st cat name force
          = ⟨false, (build_board env (build_sdk env st false).st false).st,
              Event.projAttempt cat name ::
                ((build_sdk env st false).trace
                  ++ (build_board env (build_sdk env st false).st false).trace)⟩ := by
        simp [build_project, hcat, hmem, h1, h2]
      refine ⟨⟨(build_board env (build_sdk env st false).st false).trace, by simp [hbp]⟩,
        fun hc => by simp [h1] at hc, fun _ _ => hbp, fun _ => ?_⟩
      intro e he
      rw [hbp] at he
      simp only [List.mem_cons, List.mem_append] at he
      rcases he with rfl | he | he
      · exact ⟨by simp, by simp⟩
      · have := build_sdk_trace_sdk env st false e he
        cases e <;> simp_all [Event.isSdkStage]
      · have := build_board_trace_board env (build_sdk env st false).st false e he
        cases e <;> simp_all [Event.isBoardStage]
    | true =>
      refine ⟨?_, fun hc => by simp [h1] at hc, fun _ hc => by simp [h2] at hc,
        fun hc => by rcases hc with hc | hc
                     · simp [h1] at hc
                     · simp [h2] at hc⟩
      by_cases h3 : env.projConfigureOk cat name
      · exact ⟨(build_board env (build_sdk env st false).st false).trace
          ++ [Event.projConfigure cat name, Event.projCompile cat name],
          by simp [build_project, hcat, hmem, h1, h2, h3]⟩
      · exact ⟨(build_board env (build_sdk env st false).st false).trace
          ++ [Event.projConfigure cat name],
          by simp [build_project, hcat, hmem, h1, h2, h3]⟩

/-- Witness for C1: a catalog with the example `mac`, an environment
whose SDK configure stage fails, and a forced project build: the forced
flag is not propagated and the failure is the SDK's. -/
theorem c1_build_project_prereqs_witness :
    Projects.category ⟨[], ["mac"]⟩ "examples" = some ["mac"] ∧
    (["mac"] : List String).contains "mac" = true ∧
    (∃ tail,
      (build_project envSdkConfFails ⟨[], ["mac"]⟩ defaultBuildConfig
          "examples" "mac" true).trace
      = Event.projAttempt "examples" "mac" ::
          ((build_sdk envSdkConfFails defaultBuildConfig false).trace ++ tail)) :=
  ⟨by decide, by decide,
    (c1_build_project_prereqs envSdkConfFails ⟨[], ["mac"]⟩ defaultBuildConfig
      "examples" "mac" true ["mac"] (by decide) (by decide)).1⟩

/-- **C2**: `build_all` runs the SDK stage, then the board stage, then
the examples stage, stopping at the first failing stage — if the SDK
stage fails the whole trace consists of SDK stage events only, so
neither `build_board` nor `build_examples` was invoked — and it returns
success exactly when all three stages succeed. -/
theorem c2_build_all_sequencing (env : Env) (ps : Projects)
    (st : BuildConfig) (force : Bool) :
    ((build_sdk env st force).ok = false →
      build_all env ps st force
        = ⟨false, (build_sdk env st force).st, (build_sdk env st force).trace⟩ ∧
      ∀ e ∈ (build_all env ps st force).trace, e.isSdkStage = true) ∧
    ((build_sdk env st force).ok = true →
      (build_board env (build_sdk env st force).st force).ok = false →
      build_all env ps st force
        = ⟨false, (build_board env (build_sdk env st force).st force).st,
            (build_sdk env st force).trace
              ++ (build_board env (build_sdk env st force).st force).trace⟩) ∧
    (build_all env ps st force).ok
      = ((build_sdk env st force).ok
          && (build_board env (build_sdk env st force).st force).ok
          && (build_examples env ps
                (build_board env (build_sdk env st force).st force).st force).ok) := by
  cases h1 : (build_sdk env st force).ok with
  | false =>
    have hba : build_all env ps st force
        = ⟨false, (build_sdk env st force).st, (build_sdk env st force).trace⟩ := by
      simp [build_all, h1]
    refine ⟨fun _ => ⟨hba, ?_⟩, fun hc => by simp [h1] at hc, by simp [hba, h1]⟩
    intro e he
    rw [hba] at he
    exact build_sdk_trace_sdk env st force e he
  | true =>
    cases h2 : (build_board env (build_sdk env st force).st force).ok with
    | false =>
      refine ⟨fun hc => by simp [h1] at hc, fun _ _ => by simp [build_all, h1, h2], ?_⟩
      simp [build_all, h1, h2]
    | true =>
      refine ⟨fun hc => by simp [h1] at hc, fun _ hc => by simp [h2] at hc, ?_⟩
      simp [build_all, h1, h2]

/-- Witness for C2: an environment whose SDK configure stage fails on a
fresh state: `build_all` aborts with only the SDK configure event. -/
theorem c2_build_all_sequencing_witness :
    (build_sdk envSdkConfFails defaultBuildConfig false).ok = false ∧
    build_all envSdkConfFails ⟨[], ["mac"]⟩ defaultBuildConfig false
      = ⟨false, (build_sdk envSdkConfFails defaultBuildConfig false).st,
          (build_sdk envSdkConfFails defaultBuildConfig false).trace⟩ :=
  ⟨by decide,
    ((c2_build_all_sequencing envSdkConfFails ⟨[], ["mac"]⟩
      defaultBuildConfig false).1 (by decide)).1⟩

theorem exampleAttempts_append (a b : List Event) :
    exampleAttempts (a ++ b) = exampleAttempts a ++ exampleAttempts b := by
  simp [exampleAttempts, List.filterMap_append]

theorem exampleAttempts_build_sdk (env : Env) (st : BuildConfig) (force : Bool) :
    exampleAttempts (build_sdk env st force).trace = [] := by
  unfold build_sdk
  repeat' split
  all_goals rfl

theorem exampleAttempts_build_board (env : Env) (st : BuildConfig) (force : Bool) :
    exampleAttempts (build_board env st force).trace = [] := by
  unfold build_board
  repeat' split
  all_goals rfl

theorem category_examples (ps : Projects) :
    ps.category "examples" = some ps.examples := by
  unfold Projects.category
  rw [if_neg (by decide), if_pos rfl]

theorem exampleAttempts_cons (e : Event) (tr : List Event) :
    exampleAttempts (e :: tr)
      = (match e with
          | Event.projAttempt _ n => some n
          | _ => none).toList ++ exampleAttempts tr := by
  simp [exampleAttempts, List.filterMap_cons]
  rcases e <;> simp

theorem exampleAttempts_build_project (env : Env) (ps : Projects)
    (st : BuildConfig) (name : String) (force : Bool)
    (hname : name ∈ ps.examples) :
    exampleAttempts (build_project env ps st "examples" name force).trace = [name] := by
  have hc : ps.examples.contains name = true := by simpa using hname
  have hs := exampleAttempts_build_sdk env st false
  have hb := exampleAttempts_build_board env (build_sdk env st false).st false
  cases h1 : (build_sdk env st false).ok with
  | false =>
    simp [build_project, category_examples, hc, hname, h1, exampleAttempts_cons, hs]
  | true =>
    cases h2 : (build_board env (build_sdk env st false).st false).ok with
    | false =>
      simp [build_project, category_examples, hc, hname, h1, h2, exampleAttempts_cons,
        exampleAttempts_append, hs, hb]
    | true =>
      cases h3 : env.projConfigureOk "examples" name <;>
      · simp [build_project, category_examples, hc, hname, h1, h2, h3, exampleAttempts_cons,
          exampleAttempts_append, hs, hb, exampleAttempts]
        constructor
        · intro a ha
          have := build_sdk_trace_sdk env st false a ha
          cases a <;> simp_all [Event.isSdkStage]
        · intro a ha
          have := build_board_trace_board env (build_sdk env st false).st false a ha
          cases a <;> simp_all [Event.isBoardStage]

theorem exampleAttempts_loop (env : Env) (ps : Projects) (force : Bool) :
    ∀ (names : List String) (st : BuildConfig),
      (∀ n ∈ names, n ∈ ps.examples) →
      exampleAttempts (build_examples_loop env ps force names st).2.2 = names := by
  intro names
  induction names with
  | nil => intro st _; rfl
  | cons n rest ih =>
    intro st h
    simp only [build_examples_loop, exampleAttempts_append]
    rw [exampleAttempts_build_project env ps st n force (h n (by simp)),
      ih _ (fun m hm => h m (by simp [hm]))]
    rfl

theorem loop_count_eq_results (env : Env) (ps : Projects) (force : Bool) :
    ∀ (names : List String) (st : BuildConfig),
      (build_examples_loop env ps force names st).1
        = (examplesResults env ps force names st).count true := by
  intro names
  induction names with
  | nil => intro st; rfl
  | cons n rest ih =>
    intro st
    simp only [build_examples_loop, examplesResults, List.count_cons, ih]
    cases h : (build_project env ps st "examples" n force).ok <;> simp <;> omega

theorem results_length (env : Env) (ps : Projects) (force : Bool) :
    ∀ (names : List String) (st : BuildConfig),
      (examplesResults env ps force names st).length = names.length := by
  intro names
  induction names with
  | nil => intro st; rfl
  | cons n rest ih => intro st; simp [examplesResults, ih]

theorem count_true_eq_length_iff (l : List Bool) :
    (l.count true = l.length ↔ l.all (fun b => b) = true) := by
  induction l with
  | nil => simp
  | cons b t ih =>
    cases b <;> simp [List.count_cons, ih]
    have := List.count_le_length (a := true) (l := t)
    omega

/-- **C4**: `build_examples` attempts every example of the catalog
exactly once, in catalog order — continuing past individual failures, so
the attempt list is always the whole catalog — and returns aggregate
success if and only if every individual example build succeeded. -/
theorem c4_build_examples_behavior (env : Env) (ps : Projects)
    (st : BuildConfig) (force : Bool) :
    exampleAttempts (build_examples env ps st force).trace = ps.examples ∧
    (build_examples env ps st force).ok
      = (examplesResults env ps force ps.examples st).all (fun b => b) := by
  by_cases he : ps.examples.isEmpty
  · have hnil : ps.examples = [] := by simpa using he
    constructor
    · simp [build_examples, he, hnil, exampleAttempts]
    · simp [build_examples, he, hnil, examplesResults]
  · constructor
    · simp only [build_examples, he, Bool.false_eq_true, if_false]
      exact exampleAttempts_loop env ps force ps.examples st (fun _ hn => hn)
    · simp only [build_examples, he, Bool.false_eq_true, if_false]
      rw [Bool.eq_iff_iff, beq_iff_eq, loop_count_eq_results env ps force ps.examples st,
        ← results_length env ps force ps.examples st]
      exact count_true_eq_length_iff _

theorem mem_rmtree (fs : FS) (d f : String) :
    f ∈ rmtree fs d ↔ f ∈ fs ∧ isUnder d f = false := by
  simp [rmtree, List.mem_filter]

theorem dirGone_rmtree (fs : FS) (d : String) : dirGone (rmtree fs d) d = true := by
  simp only [dirGone, List.all_eq_true]
  intro f hf
  have := (mem_rmtree fs d f).mp hf
  simp [this.2]

theorem dirGone_rmtree_pres (fs : FS) (d dd : String) (h : dirGone fs d = true) :
    dirGone (rmtree fs dd) d = true := by
  simp only [dirGone, List.all_eq_true] at *
  intro f hf
  exact h f ((mem_rmtree fs dd f).mp hf).1

theorem dirGone_foldl_pres (ds : List String) (fs : FS) (d : String)
    (h : dirGone fs d = true) :
    dirGone (ds.foldl rmtree fs) d = true := by
  induction ds generalizing fs with
  | nil => exact h
  | cons a rest ih => simpa using ih (rmtree fs a) (dirGone_rmtree_pres fs d a h)

theorem dirGone_foldl_mem (ds : List String) (fs : FS) (d : String) (h : d ∈ ds) :
    dirGone (ds.foldl rmtree fs) d = true := by
  induction ds generalizing fs with
  | nil => cases h
  | cons a rest ih =>
    rcases List.mem_cons.mp h with rfl | hm
    · simpa using dirGone_foldl_pres rest (rmtree fs d) d (dirGone_rmtree fs d)
    · simpa using ih (rmtree fs a) hm

theorem fileExists_eq_false_of_dirGone (fs : FS) (d p : String)
    (hg : dirGone fs d = true) (hu : isUnder d p = true) :
    fileExists fs p = false := by
  cases hx : fileExists fs p with
  | false => rfl
  | true =>
    have hp : p ∈ fs := by simpa [fileExists] using hx
    simp only [dirGone, List.all_eq_true] at hg
    have := hg p hp
    simp [hu] at this

theorem toList_append_str (s t : String) : (s ++ t).toList = s.toList ++ t.toList := by
  cases s with
  | mk a => cases t with
    | mk b => rfl

theorem isUnder_out_boardLib (b : String) : isUnder "out" (boardLibPath b) = true := by
  have hp : List.isPrefixOf ("out".toList ++ ['/']) (boardLibPath b).toList = true := by
    rw [List.isPrefixOf_iff_prefix]
    have h1 : (boardLibPath b).toList
        = "out/linx/lib/liblinx_board_".toList ++ (b.toList ++ ".a".toList) := by
      unfold boardLibPath
      rw [toList_append_str, toList_append_str, List.append_assoc]
    rw [h1]
    have h2 : "out/linx/lib/liblinx_board_".toList
        = ("out".toList ++ ['/']) ++ "linx/lib/liblinx_board_".toList := by decide
    rw [h2, List.append_assoc]
    exact List.prefix_append _ _
  unfold isUnder
  rw [hp, Bool.or_true]

theorem rmtree_eq_self (fs : FS) (d : String)
    (h : ∀ f ∈ fs, isUnder d f = false) : rmtree fs d = fs := by
  apply List.filter_eq_self.mpr
  intro f hf
  simp [h f hf]

/-- **C8**: `clean` with no arguments removes the SDK build directory,
the output directory and every known project's build directory — so
afterwards no file remains under any of them, and in particular the
probed `sdk_built`/`board_built` artifacts are gone — the in-memory
`sdk_built` and `board_built` flags are both reset to false, and when
none of those directories exists the filesystem is left untouched
(cleaning a nonexistent directory is a no-op, not an error). -/
theorem c8_clean_all (ps : Projects) (fs : FS) (st : BuildConfig) :
    (cleanAll ps fs st).2.sdk_built = false ∧
    (cleanAll ps fs st).2.board_built = false ∧
    dirGone (cleanAll ps fs st).1 "build" = true ∧
    dirGone (cleanAll ps fs st).1 "out" = true ∧
    (∀ d ∈ projectBuildDirs ps, dirGone (cleanAll ps fs st).1 d = true) ∧
    check_sdk_built (cleanAll ps fs st).1 = false ∧
    (∀ b : String, fileExists (cleanAll ps fs st).1 (boardLibPath b) = false) ∧
    ((∀ f ∈ fs, isUnder "build" f = false ∧ isUnder "out" f = false ∧
        ∀ d ∈ projectBuildDirs ps, isUnder d f = false) →
      (cleanAll ps fs st).1 = fs) := by
  refine ⟨rfl, rfl, ?_, ?_, ?_, ?_, ?_, ?_⟩
  · exact dirGone_foldl_pres _ _ _
      (dirGone_rmtree_pres _ _ _ (dirGone_rmtree fs "build"))
  · exact dirGone_foldl_pres _ _ _ (dirGone_rmtree _ "out")
  · intro d hd
    exact dirGone_foldl_mem _ _ _ hd
  · apply fileExists_eq_false_of_dirGone _ "out"
    · exact dirGone_foldl_pres _ _ _ (dirGone_rmtree _ "out")
    · decide
  · intro b
    apply fileExists_eq_false_of_dirGone _ "out"
    · exact dirGone_foldl_pres _ _ _ (dirGone_rmtree _ "out")
    · exact isUnder_out_boardLib b
  · intro h
    show ((projectBuildDirs ps).foldl rmtree (rmtree (rmtree fs "build") "out")) = fs
    have h1 : rmtree fs "build" = fs :=
      rmtree_eq_self fs "build" (fun f hf => (h f hf).1)
    rw [h1]
    have h2 : rmtree fs "out" = fs :=
      rmtree_eq_self fs "out" (fun f hf => (h f hf).2.1)
    rw [h2]
    have h3 : ∀ ds : List String, (∀ d ∈ ds, ∀ f ∈ fs, isUnder d f = false) →
        ds.foldl rmtree fs = fs := by
      intro ds
      induction ds with
      | nil => intro _; rfl
      | cons a rest ih =>
        intro ha
        have hra : rmtree fs a = fs :=
          rmtree_eq_self fs a (fun f hf => ha a (by simp) f hf)
        simpa [hra] using ih (fun d hd f hf => ha d (by simp [hd]) f hf)
    exact h3 (projectBuildDirs ps) (fun d hd f hf => (h f hf).2.2 d hd)

/-- Witness for C8 on a small concrete filesystem and catalog. -/
theorem c8_clean_all_witness :
    ((∀ f ∈ (["sdk/inc.h"] : FS), isUnder "build" f = false ∧ isUnder "out" f = false ∧
        ∀ d ∈ projectBuildDirs ⟨["a1"], ["e1"]⟩, isUnder d f = false) ∧
      (cleanAll ⟨["a1"], ["e1"]⟩ ["sdk/inc.h"] defaultBuildConfig).2.sdk_built = false) ∧
    (cleanAll ⟨["a1"], ["e1"]⟩ ["sdk/inc.h"] defaultBuildConfig).1 = ["sdk/inc.h"] :=
  ⟨⟨by decide, (c8_clean_all ⟨["a1"], ["e1"]⟩ ["sdk/inc.h"] defaultBuildConfig).1⟩,
    (c8_clean_all ⟨["a1"], ["e1"]⟩ ["sdk/inc.h"] defaultBuildConfig).2.2.2.2.2.2.2
      (by decide)⟩
